import Mathlib

/-! Verification of the spectral line-shape synthesis engine of the
HITRAN CRDS simulator.  The definitions below are a shallow embedding of
`hitran_crds_simulator/spectrum_calc/absorption.py` (class
`SpectrumCalculator`): machine floats are idealised as real numbers,
numpy arrays over the frequency grid as `List ℝ`, and the Python
exception channel as `Except String`.  The external special function
`scipy.special.wofz` (the Faddeeva function) is modelled through its
standard integral representation, see `wofzRe` below. -/

open MeasureTheory

namespace HitranSim

noncomputable section

/-- Speed of light in m/s (`self.c` in `SpectrumCalculator.__init__`). -/
def c : ℝ := 2.99792458e8

/-- Boltzmann constant in J/K (`self.k_B`). -/
def k_B : ℝ := 1.380649e-23

/-- Avogadro's number (`self.N_A`). -/
def N_A : ℝ := 6.02214076e23

/-- Model of the real part of `scipy.special.wofz` (the Faddeeva function
`w(z)`) at `z = x + i*y`, via the standard integral representation
`Re w(x+iy) = (y/π) ∫ exp(-t²) / ((x-t)² + y²) dt`, which is the defining
formula of the Voigt kernel for `y > 0`. -/
def wofzRe (x y : ℝ) : ℝ :=
  (y / Real.pi) * ∫ t : ℝ, Real.exp (-(t ^ 2)) / ((x - t) ^ 2 + y ^ 2)

/-- One grid point of `SpectrumCalculator.voigt_profile`:
`x = (frequency - center_freq) / gamma_doppler`,
`y = gamma_lorentz / gamma_doppler`, `w = wofz(x + i*y)`,
`profile = w.real / (gamma_doppler * sqrt(pi))`. -/
def voigt_profile_at (frequency center_freq gamma_lorentz gamma_doppler : ℝ) : ℝ :=
  wofzRe ((frequency - center_freq) / gamma_doppler) (gamma_lorentz / gamma_doppler) /
    (gamma_doppler * Real.sqrt Real.pi)

/-- `SpectrumCalculator.voigt_profile`, vectorised over the frequency grid
exactly as the numpy expression is. -/
def voigt_profile (frequency : List ℝ) (center_freq gamma_lorentz gamma_doppler : ℝ) : List ℝ :=
  frequency.map (fun f => voigt_profile_at f center_freq gamma_lorentz gamma_doppler)

/-- `SpectrumCalculator.calculate_doppler_width`:
`(center_freq / c) * sqrt(2 * k_B * temperature * N_A / (molecular_mass * 1e-3))`. -/
def calculate_doppler_width (center_freq temperature molecular_mass : ℝ) : ℝ :=
  (center_freq / c) * Real.sqrt (2 * k_B * temperature * N_A / (molecular_mass * 1e-3))

/-- Exception-aware embedding of `calculate_doppler_width`.  The Python body
is straight-line float arithmetic containing no `raise` statement and no
operation that raises on float inputs, so every call returns normally. -/
def calculate_doppler_widthE (center_freq temperature molecular_mass : ℝ) : Except String ℝ :=
  Except.ok (calculate_doppler_width center_freq temperature molecular_mass)

/-- `SpectrumCalculator.calculate_lorentz_width`:
`pressure_broadening * pressure * (ref_temp / temperature)**0.5`.
For a non-negative ratio, Python `**0.5` is the real square root. -/
def calculate_lorentz_width (pressure_broadening pressure temperature ref_temp : ℝ) : ℝ :=
  pressure_broadening * pressure * Real.sqrt (ref_temp / temperature)

/-- The default value `ref_temp=296.0` of `calculate_lorentz_width`. -/
def ref_temp_default : ℝ := 296.0

/-- `calculate_lorentz_width` as it is invoked with the default reference
temperature (the call site in `calculate_absorption_spectrum` passes no
`ref_temp`). -/
def calculate_lorentz_width_default (pressure_broadening pressure temperature : ℝ) : ℝ :=
  calculate_lorentz_width pressure_broadening pressure temperature ref_temp_default

/-- One HITRAN line record as read by `calculate_absorption_spectrum`:
`line['nu']`, `line['sw']`, `line['gamma_air']`. -/
structure HitranLine where
  nu : ℝ
  sw : ℝ
  gamma_air : ℝ

/-- The result dictionary returned by `calculate_absorption_spectrum`. -/
structure SpectrumResult where
  frequency : List ℝ
  absorption_coeff : List ℝ
  transmittance : List ℝ
  absorbance : List ℝ

/-- The `molecular_masses` dict literal inside
`calculate_absorption_spectrum` (28 entries, g/mol). -/
def molecularMasses : List (String × ℝ) :=
  [("H2O", 18.015), ("CO2", 44.01), ("CH4", 16.04), ("NH3", 17.03),
   ("N2O", 44.01), ("CO", 28.01), ("O3", 47.998), ("SO2", 64.066),
   ("NO2", 46.006), ("HNO3", 63.01), ("O2", 31.998), ("NO", 30.006),
   ("OH", 17.007), ("HF", 20.006), ("HCl", 36.458), ("HBr", 80.912),
   ("HI", 127.912), ("ClO", 51.452), ("OCS", 60.076), ("H2CO", 30.026),
   ("HOCl", 52.460), ("N2", 28.014), ("HCN", 27.026), ("CH3Cl", 50.487),
   ("H2O2", 34.015), ("C2H2", 26.037), ("C2H6", 30.069), ("PH3", 33.998)]

/-- `molecular_masses.get(molecule, 18.015)` at line 125 of the source:
the molar mass actually used by `calculate_absorption_spectrum`. -/
def resolveMolecularMass (molecule : String) : ℝ :=
  (molecularMasses.lookup molecule).getD 18.015

/-- The contribution of one line to the absorption coefficient array:
`intensity * concentration * line_shape * 1e20` elementwise, with
`line_shape = voigt_profile(frequency_grid, center_freq, gamma_l, gamma_d)`,
`gamma_d = calculate_doppler_width(center_freq, temperature, molecular_mass)`
and `gamma_l = calculate_lorentz_width(gamma_air, pressure, temperature)`. -/
def lineContribution (line : HitranLine) (frequency_grid : List ℝ)
    (temperature pressure concentration molecular_mass : ℝ) : List ℝ :=
  (voigt_profile frequency_grid line.nu
      (calculate_lorentz_width_default line.gamma_air pressure temperature)
      (calculate_doppler_width line.nu temperature molecular_mass)).map
    (fun s => line.sw * concentration * s * 1e20)

/-- The accumulation loop of `calculate_absorption_spectrum`:
`absorption_coeff = np.zeros_like(frequency_grid)` followed by
`absorption_coeff += intensity * concentration * line_shape * 1e20`
for each line of `hitran_data`. -/
def accumulateLines (hitran_data : List HitranLine) (frequency_grid : List ℝ)
    (temperature pressure concentration molecular_mass : ℝ) : List ℝ :=
  hitran_data.foldl
    (fun acc line =>
      List.zipWith (fun a b => a + b) acc
        (lineContribution line frequency_grid temperature pressure concentration molecular_mass))
    (frequency_grid.map (fun _ => (0 : ℝ)))

/-- The tail of `calculate_absorption_spectrum` once the molar mass is
fixed: accumulate all line contributions, then apply the Beer-Lambert law
`transmittance = exp(-absorption_coeff * path_length)` and
`absorbance = -log10(transmittance)`. -/
def spectrumWithMass (hitran_data : List HitranLine) (frequency_grid : List ℝ)
    (temperature pressure concentration path_length molecular_mass : ℝ) : SpectrumResult :=
  let absorption_coeff :=
    accumulateLines hitran_data frequency_grid temperature pressure concentration molecular_mass
  let transmittance := absorption_coeff.map (fun a => Real.exp (-(a * path_length)))
  let absorbance := transmittance.map (fun t => -(Real.logb 10 t))
  { frequency := frequency_grid, absorption_coeff := absorption_coeff,
    transmittance := transmittance, absorbance := absorbance }

/-- `SpectrumCalculator.calculate_absorption_spectrum`.  Its `molecule`
parameter is a species-name string; the molar mass is resolved internally
via the `molecular_masses` dict with default `18.015`. -/
def calculate_absorption_spectrum (hitran_data : List HitranLine) (frequency_grid : List ℝ)
    (temperature pressure concentration path_length : ℝ) (molecule : String) : SpectrumResult :=
  spectrumWithMass hitran_data frequency_grid temperature pressure concentration path_length
    (resolveMolecularMass molecule)

/-- Exception-aware embedding of `calculate_absorption_spectrum`.  The body
performs list iteration and numpy float arithmetic only; no code path
raises on numeric inputs (the dict access uses `.get` with a default), so
every call returns normally. -/
def calculate_absorption_spectrumE (hitran_data : List HitranLine) (frequency_grid : List ℝ)
    (temperature pressure concentration path_length : ℝ) (molecule : String) :
    Except String SpectrumResult :=
  Except.ok (calculate_absorption_spectrum hitran_data frequency_grid temperature pressure
    concentration path_length molecule)

/-- Written from the spec's words (§4.2 Algorithm): initialise
`absorption_coefficient` to zero with the same length as the grid, for
each line accumulate
`line_intensity * concentration * voigt_profile(grid, ν₀, γ_l, γ_d) * 1e20`,
then `transmittance = exp(-absorption_coefficient * path_length)` and
`absorbance = -log10(transmittance)`, returning the four arrays. -/
def specSynthesize (lines : List HitranLine) (frequency_grid : List ℝ)
    (temperature pressure concentration path_length species_molar_mass : ℝ) : SpectrumResult :=
  let absorption_coefficient :=
    lines.foldl
      (fun acc line =>
        List.zipWith (fun a b => a + b) acc
          ((voigt_profile frequency_grid line.nu
              (calculate_lorentz_width_default line.gamma_air pressure temperature)
              (calculate_doppler_width line.nu temperature species_molar_mass)).map
            (fun s => line.sw * concentration * s * 1e20)))
      (List.replicate frequency_grid.length (0 : ℝ))
  let transmittance := absorption_coefficient.map (fun a => Real.exp (-(a * path_length)))
  let absorbance := transmittance.map (fun t => -(Real.logb 10 t))
  { frequency := frequency_grid, absorption_coeff := absorption_coefficient,
    transmittance := transmittance, absorbance := absorbance }

end

/-! Basic facts about the embedded physical constants and the molar-mass
table, shared by several claim theorems below. -/

theorem c_pos : 0 < c := by unfold c; norm_num

theorem k_B_pos : 0 < k_B := by unfold k_B; norm_num

theorem N_A_pos : 0 < N_A := by unfold N_A; norm_num

theorem resolveMolecularMass_H2O : resolveMolecularMass "H2O" = 18.015 := rfl

theorem resolveMolecularMass_CO2 : resolveMolecularMass "CO2" = 44.01 := rfl

/-- C5: `calculate_doppler_width` returns
`(center_frequency / c) * sqrt(2 * k_B * T * N_A / (molecular_mass * 1e-3))`,
and the result is strictly positive whenever the center frequency is
positive (given positive temperature and molecular mass). -/
theorem doppler_width_formula_and_pos (cf T M : ℝ) (hT : 0 < T) (hM : 0 < M) :
    calculate_doppler_width cf T M
        = (cf / c) * Real.sqrt (2 * k_B * T * N_A / (M * 1e-3)) ∧
      (0 < cf → 0 < calculate_doppler_width cf T M) := by
  refine ⟨rfl, fun hcf => ?_⟩
  unfold calculate_doppler_width
  have harg : 0 < 2 * k_B * T * N_A / (M * 1e-3) := by
    apply div_pos
    · exact mul_pos (mul_pos (mul_pos two_pos k_B_pos) hT) N_A_pos
    · apply mul_pos hM; norm_num
  exact mul_pos (div_pos hcf c_pos) (Real.sqrt_pos.mpr harg)

/-- Witness for C5 at `center_frequency = 1`, `T = 1`, `M = 1`. -/
theorem doppler_width_formula_and_pos_witness :
    calculate_doppler_width 1 1 1
        = (1 / c) * Real.sqrt (2 * k_B * 1 * N_A / (1 * 1e-3)) ∧
      0 < calculate_doppler_width 1 1 1 := by
  have h := doppler_width_formula_and_pos 1 1 1 (by norm_num) (by norm_num)
  exact ⟨h.1, h.2 (by norm_num)⟩

/-- C6 counterexample: with a negative broadening coefficient the claim's
unrestricted monotonicity in pressure fails.  At
`air_broadening_coefficient = -1`, `T = 296`, raising the pressure from
`0` to `1` strictly decreases the returned width (`-1 < 0`). -/
theorem lorentz_width_monotone_counterexample :
    calculate_lorentz_width_default (-1) 1 296 < calculate_lorentz_width_default (-1) 0 296 := by
  unfold calculate_lorentz_width_default calculate_lorentz_width ref_temp_default
  have h296 : (296.0 : ℝ) / 296 = 1 := by norm_num
  rw [h296, Real.sqrt_one]
  norm_num

/-- C6 (amended): `lorentz_width` returns
`air_broadening_coefficient * pressure * sqrt(reference_temperature / temperature)`
with the reference temperature defaulting to `296.0`; for a NON-NEGATIVE
broadening coefficient the value is non-decreasing in pressure at fixed
temperature and, for non-negative pressure, non-increasing in temperature
at fixed pressure. -/
theorem lorentz_width_formula_and_monotone (pb p p1 p2 T1 T2 : ℝ)
    (hpb : 0 ≤ pb) (hp : 0 ≤ p) (hp12 : p1 ≤ p2) (hT1 : 0 < T1) (hT12 : T1 ≤ T2) :
    calculate_lorentz_width_default pb p T1
        = pb * p * Real.sqrt (ref_temp_default / T1) ∧
      ref_temp_default = 296.0 ∧
      calculate_lorentz_width_default pb p1 T1 ≤ calculate_lorentz_width_default pb p2 T1 ∧
      calculate_lorentz_width_default pb p T2 ≤ calculate_lorentz_width_default pb p T1 := by
  refine ⟨rfl, rfl, ?_, ?_⟩
  · unfold calculate_lorentz_width_default calculate_lorentz_width
    exact mul_le_mul_of_nonneg_right (mul_le_mul_of_nonneg_left hp12 hpb) (Real.sqrt_nonneg _)
  · unfold calculate_lorentz_width_default calculate_lorentz_width
    have hdiv : ref_temp_default / T2 ≤ ref_temp_default / T1 := by
      have h0 : (0 : ℝ) ≤ ref_temp_default := by unfold ref_temp_default; norm_num
      gcongr
    calc pb * p * Real.sqrt (ref_temp_default / T2)
        ≤ pb * p * Real.sqrt (ref_temp_default / T1) :=
          mul_le_mul_of_nonneg_left (Real.sqrt_le_sqrt hdiv) (mul_nonneg hpb hp)
      _ = pb * p * Real.sqrt (ref_temp_default / T1) := rfl

/-- Witness for C6 at `pb = 1`, `p = 1`, `p1 = 0`, `p2 = 1`, `T1 = T2 = 296`. -/
theorem lorentz_width_formula_and_monotone_witness :
    calculate_lorentz_width_default 1 1 296
        = 1 * 1 * Real.sqrt (ref_temp_default / 296) ∧
      ref_temp_default = 296.0 ∧
      calculate_lorentz_width_default 1 0 296 ≤ calculate_lorentz_width_default 1 1 296 ∧
      calculate_lorentz_width_default 1 1 296 ≤ calculate_lorentz_width_default 1 1 296 :=
  lorentz_width_formula_and_monotone 1 1 0 1 296 296 (by norm_num) (by norm_num)
    (by norm_num) (by norm_num) (by norm_num)

/-- For a non-negative width ratio `y`, the modelled real part of the
Faddeeva function is non-negative: the Voigt-kernel integrand is a
non-negative function. -/
theorem wofzRe_nonneg (x y : ℝ) (hy : 0 ≤ y) : 0 ≤ wofzRe x y := by
  unfold wofzRe
  apply mul_nonneg (div_nonneg hy Real.pi_pos.le)
  apply integral_nonneg
  intro t
  apply div_nonneg (Real.exp_nonneg _)
  positivity

/-- For a non-positive width ratio `y`, the modelled real part of the
Faddeeva function is non-positive. -/
theorem wofzRe_nonpos (x y : ℝ) (hy : y ≤ 0) : wofzRe x y ≤ 0 := by
  unfold wofzRe
  apply mul_nonpos_iff.mpr
  refine Or.inr ⟨div_nonpos_iff.mpr (Or.inr ⟨hy, Real.pi_pos.le⟩), ?_⟩
  apply integral_nonneg
  intro t
  apply div_nonneg (Real.exp_nonneg _)
  positivity

/-- One Voigt-profile sample is non-negative whenever the Lorentz width is
non-negative (for any Doppler width, by sign analysis of numerator and
denominator; at `gamma_doppler = 0` both reduce to `0`). -/
theorem voigt_profile_at_nonneg (f cf gl gd : ℝ) (hgl : 0 ≤ gl) :
    0 ≤ voigt_profile_at f cf gl gd := by
  unfold voigt_profile_at
  rcases lt_trichotomy gd 0 with hneg | hzero | hpos
  · have hy : gl / gd ≤ 0 := div_nonpos_iff.mpr (Or.inl ⟨hgl, hneg.le⟩)
    have hnum := wofzRe_nonpos ((f - cf) / gd) (gl / gd) hy
    have hden : gd * Real.sqrt Real.pi ≤ 0 :=
      mul_nonpos_iff.mpr (Or.inr ⟨hneg.le, Real.sqrt_nonneg _⟩)
    exact div_nonneg_iff.mpr (Or.inr ⟨hnum, hden⟩)
  · rw [hzero]
    simp
  · have hy : 0 ≤ gl / gd := div_nonneg hgl hpos.le
    exact div_nonneg (wofzRe_nonneg _ _ hy) (mul_nonneg hpos.le (Real.sqrt_nonneg _))

/-- C4: `voigt_profile` maps each grid point `f` to
`Re w(x + i*y) / (gamma_doppler * sqrt(pi))` with
`x = (f - center)/gamma_doppler`, `y = gamma_lorentz/gamma_doppler`, and
every returned sample is non-negative for valid widths. -/
theorem voigt_profile_formula_and_nonneg (grid : List ℝ) (cf gl gd : ℝ)
    (hgd : 0 < gd) (hgl : 0 ≤ gl) :
    voigt_profile grid cf gl gd
        = grid.map (fun f => wofzRe ((f - cf) / gd) (gl / gd) / (gd * Real.sqrt Real.pi)) ∧
      ∀ pv ∈ voigt_profile grid cf gl gd, 0 ≤ pv := by
  refine ⟨rfl, fun pv hpv => ?_⟩
  unfold voigt_profile at hpv
  rcases List.mem_map.mp hpv with ⟨f, _, rfl⟩
  exact voigt_profile_at_nonneg f cf gl gd hgl

/-- Witness for C4 at grid `[0]`, `center = 0`, `gamma_lorentz = 0`,
`gamma_doppler = 1`. -/
theorem voigt_profile_formula_and_nonneg_witness :
    voigt_profile [0] 0 0 1
        = [(0 : ℝ)].map (fun f => wofzRe ((f - 0) / 1) (0 / 1) / (1 * Real.sqrt Real.pi)) ∧
      ∀ pv ∈ voigt_profile [0] 0 0 1, 0 ≤ pv :=
  voigt_profile_formula_and_nonneg [0] 0 0 1 (by norm_num) (by norm_num)

/-- C1: evaluation of the code at the failing input `temperature = -1 K`.
`calculate_doppler_width` performs no validation: the call returns
normally (`Except.ok`) with the square root of a negative quantity (NaN in
float arithmetic) instead of raising an invalid-parameter error. -/
theorem doppler_width_no_validation_at_negative_temperature :
    calculate_doppler_widthE 100 (-1) 18.015
        = Except.ok (calculate_doppler_width 100 (-1) 18.015) ∧
      calculate_absorption_spectrumE [] [] (-1) 1 0.001 1000 "H2O"
        = Except.ok (calculate_absorption_spectrum [] [] (-1) 1 0.001 1000 "H2O") :=
  ⟨rfl, rfl⟩

/-- C2 counterexample: the core itself contains a species-name-to-molar-mass
table.  The molar mass used by `calculate_absorption_spectrum` is resolved
internally from the molecule-name string, with distinct values for distinct
known names (so it cannot equal a caller-supplied numeric molar mass, a
parameter the operation does not even accept). -/
theorem molar_mass_internal_table_counterexample :
    molecularMasses.lookup "CO2" = some (44.01 : ℝ) ∧
      resolveMolecularMass "CO2" = 44.01 ∧
      resolveMolecularMass "CH4" = 16.04 ∧
      (44.01 : ℝ) ≠ 16.04 := by
  refine ⟨rfl, rfl, rfl, by norm_num⟩

/-- C2 (amended): `calculate_absorption_spectrum` takes a molecule-name
string rather than a numeric molar mass; the molar mass used in the
Doppler-width computation is resolved internally as
`molecular_masses.get(molecule, 18.015)` from the 28-entry dict in the
function body, and the computation factors through that resolved value. -/
theorem molar_mass_resolved_internally (data : List HitranLine) (grid : List ℝ)
    (T p conc L : ℝ) (molecule : String) :
    resolveMolecularMass molecule = (molecularMasses.lookup molecule).getD 18.015 ∧
      molecularMasses.length = 28 ∧
      calculate_absorption_spectrum data grid T p conc L molecule
        = spectrumWithMass data grid T p conc L (resolveMolecularMass molecule) :=
  ⟨rfl, rfl, rfl⟩

/-! Projections of `calculate_absorption_spectrum` in terms of the
accumulation loop.  These hold by unfolding the definition. -/

theorem spectrum_coeff_eq (lines : List HitranLine) (grid : List ℝ) (T p conc L : ℝ)
    (mol : String) :
    (calculate_absorption_spectrum lines grid T p conc L mol).absorption_coeff
      = accumulateLines lines grid T p conc (resolveMolecularMass mol) := rfl

theorem spectrum_frequency_eq (lines : List HitranLine) (grid : List ℝ) (T p conc L : ℝ)
    (mol : String) :
    (calculate_absorption_spectrum lines grid T p conc L mol).frequency = grid := rfl

theorem spectrum_trans_eq (lines : List HitranLine) (grid : List ℝ) (T p conc L : ℝ)
    (mol : String) :
    (calculate_absorption_spectrum lines grid T p conc L mol).transmittance
      = (accumulateLines lines grid T p conc (resolveMolecularMass mol)).map
          (fun a => Real.exp (-(a * L))) := rfl

theorem spectrum_abs_eq (lines : List HitranLine) (grid : List ℝ) (T p conc L : ℝ)
    (mol : String) :
    (calculate_absorption_spectrum lines grid T p conc L mol).absorbance
      = ((accumulateLines lines grid T p conc (resolveMolecularMass mol)).map
          (fun a => Real.exp (-(a * L)))).map (fun t => -(Real.logb 10 t)) := rfl

/-- The per-line contribution array has the length of the frequency grid. -/
theorem lineContribution_length (line : HitranLine) (grid : List ℝ) (T p conc M : ℝ) :
    (lineContribution line grid T p conc M).length = grid.length := by
  unfold lineContribution voigt_profile
  simp

/-- The accumulation loop preserves the grid length of the accumulator. -/
theorem foldl_zipWith_length (grid : List ℝ) (T p conc M : ℝ) :
    ∀ (l : List HitranLine) (acc : List ℝ), acc.length = grid.length →
      (l.foldl
        (fun acc line =>
          List.zipWith (fun a b => a + b) acc (lineContribution line grid T p conc M))
        acc).length = grid.length := by
  intro l
  induction l with
  | nil => intro acc h; simpa using h
  | cons hd tl ih =>
    intro acc h
    rw [List.foldl_cons]
    apply ih
    rw [List.length_zipWith, h, lineContribution_length, min_self]

/-- The absorption-coefficient array has the length of the grid. -/
theorem accumulateLines_length (lines : List HitranLine) (grid : List ℝ) (T p conc M : ℝ) :
    (accumulateLines lines grid T p conc M).length = grid.length := by
  unfold accumulateLines
  exact foldl_zipWith_length grid T p conc M lines _ (by simp)

/-- C3: `calculate_absorption_spectrum` computes exactly the algorithm of
the spec: start from an all-zero array the length of the grid, add for
each line `line_intensity * concentration * voigt_profile * 1e20`, then
take `transmittance = exp(-absorption_coefficient * path_length)` and
`absorbance = -log10(transmittance)`, returning the four arrays, all of
the grid's length. -/
theorem spectrum_algorithm_and_lengths (lines : List HitranLine) (grid : List ℝ)
    (T p conc L : ℝ) (mol : String) :
    calculate_absorption_spectrum lines grid T p conc L mol
        = specSynthesize lines grid T p conc L (resolveMolecularMass mol) ∧
      (calculate_absorption_spectrum lines grid T p conc L mol).frequency = grid ∧
      (calculate_absorption_spectrum lines grid T p conc L mol).absorption_coeff.length
        = grid.length ∧
      (calculate_absorption_spectrum lines grid T p conc L mol).transmittance.length
        = grid.length ∧
      (calculate_absorption_spectrum lines grid T p conc L mol).absorbance.length
        = grid.length := by
  refine ⟨?_, rfl, ?_, ?_, ?_⟩
  · show spectrumWithMass lines grid T p conc L (resolveMolecularMass mol) = _
    unfold spectrumWithMass specSynthesize accumulateLines lineContribution
    rw [List.map_const']
  · rw [spectrum_coeff_eq]
    exact accumulateLines_length lines grid T p conc (resolveMolecularMass mol)
  · rw [spectrum_trans_eq, List.length_map]
    exact accumulateLines_length lines grid T p conc (resolveMolecularMass mol)
  · rw [spectrum_abs_eq, List.length_map, List.length_map]
    exact accumulateLines_length lines grid T p conc (resolveMolecularMass mol)

/-- Adding an all-zero contribution array to an all-zero accumulator over
the same grid leaves the accumulator all zero. -/
theorem zipWith_add_map_zero (g : List ℝ) (h : ℝ → ℝ) (hh : ∀ x, h x = 0) :
    List.zipWith (fun a b => a + b) (g.map (fun _ => (0 : ℝ))) (g.map h)
      = g.map (fun _ => (0 : ℝ)) := by
  induction g with
  | nil => rfl
  | cons x xs ih => simp only [List.map_cons, List.zipWith_cons_cons, hh, add_zero, ih]

/-- With `concentration = 0` every per-line contribution vanishes, so the
accumulation loop keeps the accumulator at the all-zero array. -/
theorem foldl_conc_zero (grid : List ℝ) (T p M : ℝ) :
    ∀ (l : List HitranLine),
      l.foldl
        (fun acc line =>
          List.zipWith (fun a b => a + b) acc (lineContribution line grid T p 0 M))
        (grid.map (fun _ => (0 : ℝ))) = grid.map (fun _ => (0 : ℝ)) := by
  intro l
  induction l with
  | nil => rfl
  | cons hd tl ih =>
    rw [List.foldl_cons]
    have hstep :
        List.zipWith (fun a b => a + b) (grid.map (fun _ => (0 : ℝ)))
            (lineContribution hd grid T p 0 M) = grid.map (fun _ => (0 : ℝ)) := by
      unfold lineContribution voigt_profile
      rw [List.map_map]
      exact zipWith_add_map_zero grid _ (fun f => by simp)
    rw [hstep]
    exact ih

/-- The accumulated absorption coefficient is the all-zero array when the
line list is empty. -/
theorem accumulateLines_nil (grid : List ℝ) (T p conc M : ℝ) :
    accumulateLines [] grid T p conc M = grid.map (fun _ => (0 : ℝ)) := rfl

/-- The accumulated absorption coefficient is the all-zero array when the
concentration is zero. -/
theorem accumulateLines_conc_zero (lines : List HitranLine) (grid : List ℝ) (T p M : ℝ) :
    accumulateLines lines grid T p 0 M = grid.map (fun _ => (0 : ℝ)) := by
  unfold accumulateLines
  exact foldl_conc_zero grid T p M lines

/-- If the accumulated coefficient array is all zero, the spectrum arrays
are elementwise `0`, `1`, `0`. -/
theorem spectrum_zero_facts (lines : List HitranLine) (grid : List ℝ) (T p conc L : ℝ)
    (mol : String)
    (hacc : accumulateLines lines grid T p conc (resolveMolecularMass mol)
      = grid.map (fun _ => (0 : ℝ))) :
    (∀ a ∈ (calculate_absorption_spectrum lines grid T p conc L mol).absorption_coeff, a = 0) ∧
      (∀ t ∈ (calculate_absorption_spectrum lines grid T p conc L mol).transmittance, t = 1) ∧
      (∀ b ∈ (calculate_absorption_spectrum lines grid T p conc L mol).absorbance, b = 0) := by
  refine ⟨?_, ?_, ?_⟩
  · intro a ha
    rw [spectrum_coeff_eq, hacc] at ha
    rcases List.mem_map.mp ha with ⟨f, _, rfl⟩
    rfl
  · intro t ht
    rw [spectrum_trans_eq, hacc, List.map_map] at ht
    rcases List.mem_map.mp ht with ⟨f, _, rfl⟩
    simp [Real.exp_zero]
  · intro b hb
    rw [spectrum_abs_eq, hacc, List.map_map, List.map_map] at hb
    rcases List.mem_map.mp hb with ⟨f, _, rfl⟩
    simp [Real.exp_zero, Real.logb_one]

/-- C7: with an empty line list, or with zero concentration, the spectrum
computation returns normally (no error) with `absorption_coefficient` all
zeros, `transmittance` all ones and `absorbance` all zeros. -/
theorem zero_lines_or_zero_concentration_identity (grid : List ℝ) (T p conc L : ℝ)
    (mol : String) (lines : List HitranLine) :
    calculate_absorption_spectrumE [] grid T p conc L mol
        = Except.ok (calculate_absorption_spectrum [] grid T p conc L mol) ∧
      (∀ a ∈ (calculate_absorption_spectrum [] grid T p conc L mol).absorption_coeff, a = 0) ∧
      (∀ t ∈ (calculate_absorption_spectrum [] grid T p conc L mol).transmittance, t = 1) ∧
      (∀ b ∈ (calculate_absorption_spectrum [] grid T p conc L mol).absorbance, b = 0) ∧
      calculate_absorption_spectrumE lines grid T p 0 L mol
        = Except.ok (calculate_absorption_spectrum lines grid T p 0 L mol) ∧
      (∀ a ∈ (calculate_absorption_spectrum lines grid T p 0 L mol).absorption_coeff, a = 0) ∧
      (∀ t ∈ (calculate_absorption_spectrum lines grid T p 0 L mol).transmittance, t = 1) ∧
      (∀ b ∈ (calculate_absorption_spectrum lines grid T p 0 L mol).absorbance, b = 0) := by
  have h1 := spectrum_zero_facts [] grid T p conc L mol (accumulateLines_nil grid T p conc _)
  have h2 := spectrum_zero_facts lines grid T p 0 L mol (accumulateLines_conc_zero lines grid T p _)
  exact ⟨rfl, h1.1, h1.2.1, h1.2.2, rfl, h2.1, h2.2.1, h2.2.2⟩

/-- Elementwise addition of two elementwise non-negative arrays is
elementwise non-negative. -/
theorem mem_zipWith_add_nonneg :
    ∀ (l1 l2 : List ℝ), (∀ x ∈ l1, 0 ≤ x) → (∀ x ∈ l2, 0 ≤ x) →
      ∀ x ∈ List.zipWith (fun a b => a + b) l1 l2, 0 ≤ x := by
  intro l1
  induction l1 with
  | nil => intro l2 _ _ x hx; simp at hx
  | cons a t ih =>
    intro l2 h1 h2 x hx
    cases l2 with
    | nil => simp at hx
    | cons b t2 =>
      rw [List.zipWith_cons_cons] at hx
      rcases List.mem_cons.mp hx with h | h
      · subst h
        exact add_nonneg (h1 a (List.mem_cons_self a t)) (h2 b (List.mem_cons_self b t2))
      · exact ih t2 (fun y hy => h1 y (List.mem_cons_of_mem _ hy))
          (fun y hy => h2 y (List.mem_cons_of_mem _ hy)) x h

/-- A line with non-negative intensity and broadening coefficient
contributes a non-negative array (for non-negative pressure and
concentration). -/
theorem lineContribution_nonneg (line : HitranLine) (grid : List ℝ) (T p conc M : ℝ)
    (hsw : 0 ≤ line.sw) (hga : 0 ≤ line.gamma_air) (hp : 0 ≤ p) (hconc : 0 ≤ conc) :
    ∀ x ∈ lineContribution line grid T p conc M, 0 ≤ x := by
  intro x hx
  unfold lineContribution voigt_profile at hx
  rw [List.map_map] at hx
  rcases List.mem_map.mp hx with ⟨f, _, rfl⟩
  simp only [Function.comp_apply]
  have hgl : 0 ≤ calculate_lorentz_width_default line.gamma_air p T := by
    unfold calculate_lorentz_width_default calculate_lorentz_width
    exact mul_nonneg (mul_nonneg hga hp) (Real.sqrt_nonneg _)
  have hv := voigt_profile_at_nonneg f line.nu
    (calculate_lorentz_width_default line.gamma_air p T)
    (calculate_doppler_width line.nu T M) hgl
  have h1 : (0 : ℝ) ≤ 1e20 := by norm_num
  exact mul_nonneg (mul_nonneg (mul_nonneg hsw hconc) hv) h1

/-- The accumulated absorption coefficient is elementwise non-negative for
non-negative line parameters, pressure and concentration. -/
theorem accumulateLines_nonneg (lines : List HitranLine) (grid : List ℝ) (T p conc M : ℝ)
    (hl : ∀ line ∈ lines, 0 ≤ line.sw ∧ 0 ≤ line.gamma_air) (hp : 0 ≤ p) (hconc : 0 ≤ conc) :
    ∀ x ∈ accumulateLines lines grid T p conc M, 0 ≤ x := by
  unfold accumulateLines
  have haux : ∀ (l : List HitranLine), (∀ line ∈ l, 0 ≤ line.sw ∧ 0 ≤ line.gamma_air) →
      ∀ (acc : List ℝ), (∀ x ∈ acc, 0 ≤ x) →
      ∀ x ∈ l.foldl
        (fun acc line =>
          List.zipWith (fun a b => a + b) acc (lineContribution line grid T p conc M)) acc,
        0 ≤ x := by
    intro l
    induction l with
    | nil => intro _ acc hacc; simpa using hacc
    | cons hd tl ih =>
      intro hline acc hacc
      rw [List.foldl_cons]
      apply ih (fun line h => hline line (List.mem_cons_of_mem _ h))
      exact mem_zipWith_add_nonneg _ _ hacc
        (lineContribution_nonneg hd grid T p conc M
          (hline hd (List.mem_cons_self hd tl)).1
          (hline hd (List.mem_cons_self hd tl)).2 hp hconc)
  apply haux lines hl
  intro x hx
  rcases List.mem_map.mp hx with ⟨f, _, rfl⟩
  exact le_refl 0

/-- C8: for valid inputs (non-negative line intensities and broadening
coefficients, positive temperature, pressure, resolved molar mass and
path length, concentration in `[0,1]`) every element of the result
satisfies `absorption_coefficient ≥ 0`, `0 ≤ transmittance ≤ 1` and
`absorbance ≥ 0`. -/
theorem spectrum_result_bounds (lines : List HitranLine) (grid : List ℝ)
    (T p conc L : ℝ) (mol : String)
    (hl : ∀ line ∈ lines, 0 ≤ line.sw ∧ 0 ≤ line.gamma_air)
    (hT : 0 < T) (hp : 0 < p) (hM : 0 < resolveMolecularMass mol) (hL : 0 < L)
    (hc0 : 0 ≤ conc) (hc1 : conc ≤ 1) :
    (∀ a ∈ (calculate_absorption_spectrum lines grid T p conc L mol).absorption_coeff, 0 ≤ a) ∧
      (∀ t ∈ (calculate_absorption_spectrum lines grid T p conc L mol).transmittance,
        0 ≤ t ∧ t ≤ 1) ∧
      (∀ b ∈ (calculate_absorption_spectrum lines grid T p conc L mol).absorbance, 0 ≤ b) := by
  have hcoeff := accumulateLines_nonneg lines grid T p conc (resolveMolecularMass mol)
    hl hp.le hc0
  refine ⟨?_, ?_, ?_⟩
  · intro a ha
    rw [spectrum_coeff_eq] at ha
    exact hcoeff a ha
  · intro t ht
    rw [spectrum_trans_eq] at ht
    rcases List.mem_map.mp ht with ⟨a, ha, rfl⟩
    refine ⟨(Real.exp_pos _).le, ?_⟩
    rw [Real.exp_le_one_iff]
    exact neg_nonpos.mpr (mul_nonneg (hcoeff a ha) hL.le)
  · intro b hb
    rw [spectrum_abs_eq, List.map_map] at hb
    rcases List.mem_map.mp hb with ⟨a, ha, rfl⟩
    simp only [Function.comp_apply]
    have hle1 : Real.exp (-(a * L)) ≤ 1 :=
      Real.exp_le_one_iff.mpr (neg_nonpos.mpr (mul_nonneg (hcoeff a ha) hL.le))
    have hlogb : Real.logb 10 (Real.exp (-(a * L))) ≤ 0 :=
      Real.logb_nonpos (by norm_num) (Real.exp_pos _).le hle1
    exact neg_nonneg.mpr hlogb

/-- Witness for C8 with an empty line list over the grid `[1]` at
`T = 1`, `p = 1`, `conc = 0`, `L = 1`, molecule `"H2O"`. -/
theorem spectrum_result_bounds_witness :
    (∀ a ∈ (calculate_absorption_spectrum [] [1] 1 1 0 1 "H2O").absorption_coeff, 0 ≤ a) ∧
      (∀ t ∈ (calculate_absorption_spectrum [] [1] 1 1 0 1 "H2O").transmittance,
        0 ≤ t ∧ t ≤ 1) ∧
      (∀ b ∈ (calculate_absorption_spectrum [] [1] 1 1 0 1 "H2O").absorbance, 0 ≤ b) :=
  spectrum_result_bounds [] [1] 1 1 0 1 "H2O" (by intro line h; simp at h)
    (by norm_num) (by norm_num) (by rw [resolveMolecularMass_H2O]; norm_num)
    (by norm_num) (by norm_num) (by norm_num)

/-- Scaling both arrays elementwise by `k` commutes with elementwise
addition. -/
theorem zipWith_add_map_mul (k : ℝ) :
    ∀ (l1 l2 : List ℝ),
      List.zipWith (fun a b => a + b) (l1.map (fun a => k * a)) (l2.map (fun a => k * a))
        = (List.zipWith (fun a b => a + b) l1 l2).map (fun a => k * a) := by
  intro l1
  induction l1 with
  | nil => intro l2; rfl
  | cons a t ih =>
    intro l2
    cases l2 with
    | nil => rfl
    | cons b t2 =>
      simp only [List.map_cons, List.zipWith_cons_cons, ih, mul_add]

/-- Scaling the concentration input by `k` scales each per-line
contribution elementwise by `k`. -/
theorem lineContribution_scale (k : ℝ) (line : HitranLine) (grid : List ℝ) (T p conc M : ℝ) :
    lineContribution line grid T p (k * conc) M
      = (lineContribution line grid T p conc M).map (fun a => k * a) := by
  unfold lineContribution
  rw [List.map_map]
  congr 1
  funext s
  simp only [Function.comp_apply]
  ring

/-- Scaling the concentration input by `k` scales the accumulated
absorption coefficient array elementwise by `k`. -/
theorem accumulateLines_scale (k : ℝ) (lines : List HitranLine) (grid : List ℝ)
    (T p conc M : ℝ) :
    accumulateLines lines grid T p (k * conc) M
      = (accumulateLines lines grid T p conc M).map (fun a => k * a) := by
  unfold accumulateLines
  have haux : ∀ (l : List HitranLine) (acc : List ℝ),
      l.foldl
        (fun acc line =>
          List.zipWith (fun a b => a + b) acc (lineContribution line grid T p (k * conc) M))
        (acc.map (fun a => k * a))
      = (l.foldl
          (fun acc line =>
            List.zipWith (fun a b => a + b) acc (lineContribution line grid T p conc M))
          acc).map (fun a => k * a) := by
    intro l
    induction l with
    | nil => intro acc; rfl
    | cons hd tl ih =>
      intro acc
      rw [List.foldl_cons, List.foldl_cons, lineContribution_scale, zipWith_add_map_mul]
      exact ih _
  have hz : (grid.map (fun _ => (0 : ℝ))).map (fun a => k * a) = grid.map (fun _ => (0 : ℝ)) := by
    rw [List.map_map]
    congr 1
    funext f
    simp
  nth_rewrite 1 [← hz]
  exact haux lines _

/-- C9: for a fixed line list, grid and conditions, the absorption
coefficient array is homogeneous in concentration: scaling the
concentration by `k` scales every element by `k`. -/
theorem absorption_coeff_linear_in_concentration (k : ℝ) (lines : List HitranLine)
    (grid : List ℝ) (T p conc L : ℝ) (mol : String) :
    (calculate_absorption_spectrum lines grid T p (k * conc) L mol).absorption_coeff
      = ((calculate_absorption_spectrum lines grid T p conc L mol).absorption_coeff).map
          (fun a => k * a) := by
  rw [spectrum_coeff_eq, spectrum_coeff_eq]
  exact accumulateLines_scale k lines grid T p conc (resolveMolecularMass mol)

/-- A key that does not occur among the first components of an
association list is not found by `List.lookup`. -/
theorem lookup_eq_none_of_not_key :
    ∀ (l : List (String × ℝ)) (m : String),
      (l.map Prod.fst).contains m = false → l.lookup m = none := by
  intro l
  induction l with
  | nil => intro m _; rfl
  | cons pr t ih =>
    intro m h
    obtain ⟨key, val⟩ := pr
    rw [List.map_cons, List.contains_cons, Bool.or_eq_false_iff] at h
    rw [List.lookup_cons, h.1]
    exact ih m h.2

/-- C10: a molecule name that is not among the 28 keys of the internal
table does not make `calculate_absorption_spectrum` raise; the spectrum is
computed with the default molar mass `18.015`, so any two unknown names
give identical results. -/
theorem unknown_molecule_uses_default_mass (m1 m2 : String) (lines : List HitranLine)
    (grid : List ℝ) (T p conc L : ℝ)
    (h1 : (molecularMasses.map Prod.fst).contains m1 = false)
    (h2 : (molecularMasses.map Prod.fst).contains m2 = false) :
    molecularMasses.length = 28 ∧
      calculate_absorption_spectrumE lines grid T p conc L m1
        = Except.ok (calculate_absorption_spectrum lines grid T p conc L m1) ∧
      calculate_absorption_spectrum lines grid T p conc L m1
        = spectrumWithMass lines grid T p conc L 18.015 ∧
      calculate_absorption_spectrum lines grid T p conc L m1
        = calculate_absorption_spectrum lines grid T p conc L m2 := by
  have e1 : resolveMolecularMass m1 = 18.015 := by
    unfold resolveMolecularMass
    rw [lookup_eq_none_of_not_key molecularMasses m1 h1]
    rfl
  have e2 : resolveMolecularMass m2 = 18.015 := by
    unfold resolveMolecularMass
    rw [lookup_eq_none_of_not_key molecularMasses m2 h2]
    rfl
  refine ⟨rfl, rfl, ?_, ?_⟩
  · show spectrumWithMass lines grid T p conc L (resolveMolecularMass m1) = _
    rw [e1]
  · show spectrumWithMass lines grid T p conc L (resolveMolecularMass m1)
      = spectrumWithMass lines grid T p conc L (resolveMolecularMass m2)
    rw [e1, e2]

/-- Witness for C10 with the unknown names `"ABC"` and `"XYZ"`. -/
theorem unknown_molecule_uses_default_mass_witness :
    molecularMasses.length = 28 ∧
      calculate_absorption_spectrumE [] [] 1 1 1 1 "ABC"
        = Except.ok (calculate_absorption_spectrum [] [] 1 1 1 1 "ABC") ∧
      calculate_absorption_spectrum [] [] 1 1 1 1 "ABC"
        = spectrumWithMass [] [] 1 1 1 1 18.015 ∧
      calculate_absorption_spectrum [] [] 1 1 1 1 "ABC"
        = calculate_absorption_spectrum [] [] 1 1 1 1 "XYZ" :=
  unknown_molecule_uses_default_mass "ABC" "XYZ" [] [] 1 1 1 1 rfl rfl

end HitranSim
